import Mathlib

/-! The JWT gateway filter of plat-pkg (jm-micro/plugins/jwt/jwt.go).

A shallow embedding of the plugin in `jm-micro/plugins/jwt/jwt.go` and of the
parts of the Go standard library it calls (`strings.Trim`, `strings.Split`,
`http.Header.Get`, `http.Header.Set`, `http.Error`), followed by the
properties of the filter.

Go strings are modelled by `String`, Go maps by association lists, nilable
pointers and interfaces by `Option`, and a run-time panic by `Except.error`.
-/

set_option autoImplicit false

namespace Jwt

/-! ## Go standard library: package strings -/

namespace strings

/-- Membership of a character in a cutset, as a boolean test. -/
def inCutset (cutset : String) (c : Char) : Bool :=
  cutset.data.contains c

/-- Go `strings.Trim(s, cutset)`: the slice of `s` with every leading and
every trailing character contained in `cutset` removed. -/
def Trim (s cutset : String) : String :=
  String.mk (((s.data.dropWhile (inCutset cutset)).reverse.dropWhile (inCutset cutset)).reverse)

/-- The loop of Go `genSplit` for a non-empty separator: `skip` counts the
characters of a separator occurrence that are still to be consumed; at every
other position the separator is searched for as a prefix of what is left
(leftmost, non-overlapping occurrences, as `strings.Index` finds them). -/
def splitLoop (sep : List Char) : Nat → List Char → List (List Char)
  | _, [] => [[]]
  | skip + 1, _ :: cs => splitLoop sep skip cs
  | 0, c :: cs =>
    if sep.isPrefixOf (c :: cs) then
      [] :: splitLoop sep (sep.length - 1) cs
    else
      match splitLoop sep 0 cs with
      | [] => [[c]]
      | seg :: rest => (c :: seg) :: rest

/-- Go `strings.Split(s, sep)`: the substrings of `s` between the occurrences
of `sep`; with an empty separator the string is exploded into its characters. -/
def Split (s sep : String) : List String :=
  if sep.data.isEmpty then s.data.map (fun c => String.mk [c])
  else (splitLoop sep.data 0 s.data).map String.mk

/-- Go `strings.Join(elems, sep)`: the elements concatenated with `sep`
between each two of them. -/
def Join (elems : List String) (sep : String) : String :=
  String.mk (List.intercalate sep.data (elems.map String.data))

end strings

/-! ## jwt.go: constants and splitPath -/

/-- The constant `defaultMicroConfigPath` of jwt.go. -/
def defaultMicroConfigPath : String := "platform/app-key"

/-- The function `splitPath` of jwt.go:
`s := strings.Trim(p, "/"); return strings.Split(s, "/")`. -/
def splitPath (p : String) : List String :=
  let s := strings.Trim p "/"
  strings.Split s "/"

/-! ## Go standard library: net/textproto and net/http -/

namespace textproto

/-- Go `validHeaderFieldByte`: the token characters of RFC 7230, that is the
ASCII letters and digits and the characters ! # $ % & ' * + - . ^ _ ` | ~
(given here by their codes). -/
def validHeaderFieldByte (c : Char) : Bool :=
  c.isAlphanum ||
    [33, 35, 36, 37, 38, 39, 42, 43, 45, 46, 94, 95, 96, 124, 126].contains c.toNat

/-- The rewriting loop of Go `canonicalMIMEHeaderKey`: upper case for the first
letter and for every letter after a dash, lower case for the others. -/
def canonLoop : Bool → List Char → List Char
  | _, [] => []
  | upper, c :: cs =>
    let c1 :=
      if upper && c.isLower then c.toUpper
      else if !upper && c.isUpper then c.toLower
      else c
    c1 :: canonLoop (c1 == '-') cs

/-- Go `textproto.CanonicalMIMEHeaderKey`: a key with a character that is not
a valid header field byte is returned unchanged, every other key is put in
canonical case. -/
def CanonicalMIMEHeaderKey (s : String) : String :=
  if s.data.all validHeaderFieldByte then String.mk (canonLoop true s.data) else s

end textproto

namespace http

/-- Go `http.Header`, a `map[string][]string`, as an association list in which
the first entry of a key is the one the map holds for it. -/
structure Header where
  entries : List (String × List String)
  deriving DecidableEq, Repr

namespace Header

/-- The map read `h[k]` (none when the key is absent). -/
def index (h : Header) (k : String) : Option (List String) :=
  h.entries.lookup k

/-- The map write `h[k] = vs`. -/
def assign (h : Header) (k : String) (vs : List String) : Header :=
  ⟨(k, vs) :: h.entries.filter (fun e => e.1 != k)⟩

/-- Go `Header.Get(key)`: the first value stored under the canonical form of
`key`, the empty string when there is none. -/
def Get (h : Header) (key : String) : String :=
  match h.index (textproto.CanonicalMIMEHeaderKey key) with
  | some (v :: _) => v
  | _ => ""

/-- Go `Header.Values(key)`: all values stored under the canonical form of `key`. -/
def Values (h : Header) (key : String) : List String :=
  match h.index (textproto.CanonicalMIMEHeaderKey key) with
  | some vs => vs
  | none => []

/-- Go `Header.Set(key, value)`: the entry of the canonical form of `key` is
replaced by the single value `value`. -/
def Set (h : Header) (key value : String) : Header :=
  h.assign (textproto.CanonicalMIMEHeaderKey key) [value]

end Header

/-- The fields of Go `http.Request` that describe the request itself. -/
structure Request where
  Method : String
  URL : String
  Proto : String
  Host : String
  Body : String
  Header : http.Header
  deriving DecidableEq, Repr

/-- The state behind a Go `http.ResponseWriter`: the header map returned by
`Header()`, the status code once the header has been written, and the bytes
written to the body. -/
structure ResponseWriter where
  header : http.Header
  status : Option Nat
  body : String
  deriving DecidableEq, Repr

namespace ResponseWriter

/-- Go `ResponseWriter.WriteHeader(code)`: only the first call has an effect. -/
def WriteHeader (w : ResponseWriter) (code : Nat) : ResponseWriter :=
  if w.status.isSome then w else { w with status := some code }

/-- Go `ResponseWriter.Write(data)`: writes the header with status 200 when it
has not been written, then appends to the body. -/
def Write (w : ResponseWriter) (data : String) : ResponseWriter :=
  let w1 := w.WriteHeader 200
  { w1 with body := w1.body ++ data }

end ResponseWriter

/-- Go `http.Error(w, error, code)`: sets the two headers, writes the status
code and prints the message followed by a newline (`fmt.Fprintln`). -/
def Error (w : ResponseWriter) (error : String) (code : Nat) : ResponseWriter :=
  let w1 := { w with header := w.header.Set "Content-Type" "text/plain; charset=utf-8" }
  let w2 := { w1 with header := w1.header.Set "X-Content-Type-Options" "nosniff" }
  let w3 := w2.WriteHeader code
  w3.Write (error ++ "\n")

end http

/-! ## The environment of a handler: log, panics, external state -/

/-- The two levels the plugin logs at. -/
inductive LogLevel
  | debug
  | warn
  deriving DecidableEq, Repr

/-- One call of the package logger: level, format string and arguments. -/
structure LogEntry where
  level : LogLevel
  format : String
  args : List String
  deriving DecidableEq, Repr

/-- A Go run-time panic. -/
inductive Panic
  | nilDereference
  | other (msg : String)
  deriving DecidableEq, Repr

/-- What a handler can read and change besides the response: the log of the
package logger and `ext`, the state of everything outside the plugin
(downstream services, the clock, the configuration source). -/
structure World (σ : Type) where
  log : List LogEntry
  ext : σ
  deriving DecidableEq, Repr

/-- Go `log.Debugf(format, args...)`. -/
def World.Debugf {σ : Type} (w : World σ) (format : String) (args : List String) : World σ :=
  { w with log := w.log ++ [⟨LogLevel.debug, format, args⟩] }

/-- Go `log.Warnf(format, args...)`. -/
def World.Warnf {σ : Type} (w : World σ) (format : String) (args : List String) : World σ :=
  { w with log := w.log ++ [⟨LogLevel.warn, format, args⟩] }

/-- A computation that may panic and otherwise returns a value and the new world. -/
abbrev Eff (σ α : Type) : Type := World σ → Except Panic (α × World σ)

/-- Go `http.Handler`: `ServeHTTP(rw, r)` as a function of the response writer
and the request, returning the response writer after the call. -/
abbrev Handler (σ : Type) : Type := http.ResponseWriter → http.Request → Eff σ http.ResponseWriter

/-! ## The collaborators of the plugin (packages rpc/jwt and rpc/jwt/keystore) -/

/-- Go `rsa.PublicKey`. -/
structure PublicKey where
  N : Nat
  E : Nat
  deriving DecidableEq, Repr

/-- The interface `keystore.Key` as far as the plugin uses it: the result of
its method `PublicKey()`, a pointer that may be nil. -/
structure Key where
  PublicKey : Option PublicKey
  deriving DecidableEq, Repr

/-- The interface `keystore.Store`: the method `Get(iss)`, which returns the
key record of an issuer or nil. -/
structure Store where
  Get : String → Option Key

/-- The claims the verifier returns (`claims.Issuer` is the field the plugin reads). -/
structure Claims where
  Issuer : String
  ExpiresAt : Int
  deriving DecidableEq, Repr

/-- Go `j.VerifyOption`, with `time.Duration` in nanoseconds. -/
structure VerifyOption (σ : Type) where
  MaxExpInterval : Int
  GetPublicKeyFunc : String → Eff σ (Option PublicKey)

/-- The three results of `j.RSAVerifyJWT`: `valid`, the claims pointer and the error. -/
structure VerifyResult where
  valid : Bool
  claims : Option Claims
  err : Option String
  deriving DecidableEq, Repr

/-- The signature of `j.RSAVerifyJWT(token, opt)`; the function itself is a
parameter of the model (it may read the clock, log and call the callback). -/
abbrev Verifier (σ : Type) : Type := String → VerifyOption σ → Eff σ VerifyResult

/-- Go `%v` of an error value. -/
def errString : Option String → String
  | none => "<nil>"
  | some msg => msg

/-! ## jwt.go: the plugin -/

/-- The struct `jwt` of jwt.go; `store` is an interface value, nil until `Init`. -/
structure jwt where
  enabled : Bool
  headerKey : String
  microConfigPath : String
  maxExpInterval : Int
  store : Option Store

/-- The constant `defaultMaxExpInterval`, `10 * time.Minute` in nanoseconds. -/
def defaultMaxExpInterval : Int := 10 * (60 * 1000000000)

/-- The constant `AppIdKey`. -/
def AppIdKey : String := "x-app-id"

/-- The closure `GetPublicKeyFunc` built in `Handler` (jwt.go lines 87-93):
`p.store.Get(iss)` panics on a nil store. -/
def jwt.GetPublicKeyFunc {σ : Type} (p : jwt) (iss : String) : Eff σ (Option PublicKey) :=
  fun w =>
    let w1 := w.Debugf "Issuer from JWT: %s" [iss]
    match p.store with
    | none => .error Panic.nilDereference
    | some store =>
      match store.Get iss with
      | some key => .ok (key.PublicKey, w1)
      | none => .ok (none, w1)

/-- The value `opt` built in `Handler` (jwt.go lines 85-94). -/
def jwt.opt {σ : Type} (p : jwt) : VerifyOption σ :=
  { MaxExpInterval := p.maxExpInterval
    GetPublicKeyFunc := p.GetPublicKeyFunc }

/-- The method `Handler` of jwt.go, with `j.RSAVerifyJWT` as a parameter: the
wrapper it returns, applied to the downstream handler `h`. -/
def jwt.Handler {σ : Type} (RSAVerifyJWT : Verifier σ) (p : jwt) (h : Handler σ) : Handler σ :=
  if !p.enabled then h
  else fun rw r w =>
    let token := r.Header.Get p.headerKey
    let w1 := w.Debugf "Received JWT Token: %s" [token]
    let opt : VerifyOption σ := p.opt
    match RSAVerifyJWT token opt w1 with
    | .error e => .error e
    | .ok (res, w2) =>
      if !res.valid then
        let w3 := w2.Warnf "failed to validate JWT: %v" [errString res.err]
        let rw1 := http.Error rw "forbidden: JWT is invalid" 403
        .ok (rw1, w3)
      else
        match res.claims with
        | none => .error Panic.nilDereference
        | some claims =>
          let r1 := { r with Header := r.Header.Set AppIdKey claims.Issuer }
          h rw r1 w2

/-- The method `Init` of jwt.go, with `mc.NewMicroConfigStore` as a parameter;
returns the plugin with its store set, and the nil error. -/
def jwt.Init (NewMicroConfigStore : List String → Store) (p : jwt) : jwt × Option String :=
  let baseKeyPath := splitPath p.microConfigPath
  let store := NewMicroConfigStore baseKeyPath
  ({ p with store := some store }, none)

/-- The function `NewJWT` of jwt.go: every field but `enabled` has its zero value. -/
def NewJWT : jwt :=
  { enabled := false
    headerKey := ""
    microConfigPath := ""
    maxExpInterval := 0
    store := none }

/-- The effect of parsing the flags declared by `Flags`: each flag writes its
value (given on the command line, in the environment, or the default) to the
field that is its `Destination`. -/
def jwt.Flags (p : jwt) (enable_jwt : Bool) (jwt_key jwt_config_path : String)
    (jwt_max_exp_interval : Int) : jwt :=
  { p with
    enabled := enable_jwt
    headerKey := jwt_key
    microConfigPath := jwt_config_path
    maxExpInterval := jwt_max_exp_interval }

/-! ## Concrete handlers, verifiers and requests used to instantiate the theorems -/

/-- A downstream handler that records the request it is given in the external
state and writes nothing. -/
def recorder : Handler (List http.Request) :=
  fun rw r w => .ok (rw, { w with ext := w.ext ++ [r] })

/-- A downstream handler that always panics. -/
def crashing : Handler (List http.Request) :=
  fun _ _ _ => .error (Panic.other "downstream")

/-- A verifier that accepts every token and reports the token itself as issuer. -/
def echoVerifier {σ : Type} : Verifier σ :=
  fun token _ w => .ok (⟨true, some ⟨token, 0⟩, none⟩, w)

/-- A verifier that rejects every token as malformed. -/
def rejectAll {σ : Type} : Verifier σ :=
  fun _ _ w => .ok (⟨false, none, some "token is malformed"⟩, w)

/-- A verifier that rejects the empty token as malformed, and otherwise
resolves the key of the issuer named by the token through the callback and
accepts exactly when a key is found. -/
def lookupVerifier {σ : Type} : Verifier σ :=
  fun token opt w =>
    if token = "" then .ok (⟨false, none, some "token is malformed"⟩, w)
    else
      match opt.GetPublicKeyFunc token w with
      | .error e => .error e
      | .ok (some _, w1) => .ok (⟨true, some ⟨token, 0⟩, none⟩, w1)
      | .ok (none, w1) => .ok (⟨false, none, some "unknown issuer"⟩, w1)

/-- A verifier that reports a valid token without claims. -/
def validNoClaims {σ : Type} : Verifier σ :=
  fun _ _ w => .ok (⟨true, none, none⟩, w)

/-- A key store holding one record, for the issuer app-1. -/
def demoStore : Store :=
  ⟨fun iss => if iss = "app-1" then some ⟨some ⟨3233, 17⟩⟩ else none⟩

/-- An enabled plugin on which `Init` has not been called. -/
def uninitialised : jwt :=
  NewJWT.Flags true "x-jwt" defaultMicroConfigPath defaultMaxExpInterval

/-- An enabled plugin after `Init`. -/
def demoFilter : jwt :=
  (uninitialised.Init (fun _ => demoStore)).1

/-- A request of issuer app-1 that also carries a caller-supplied identity header. -/
def spoofedRequest : http.Request :=
  { Method := "GET", URL := "/v1/users", Proto := "HTTP/1.1", Host := "api.example.com",
    Body := "", Header := ⟨[("X-Jwt", ["app-1"]), ("X-App-Id", ["admin"])]⟩ }

/-- A request without any header. -/
def bareRequest : http.Request :=
  { Method := "GET", URL := "/v1/users", Proto := "HTTP/1.1", Host := "api.example.com",
    Body := "", Header := ⟨[]⟩ }

/-- A request whose token names an issuer the demo store does not know. -/
def unknownIssuerRequest : http.Request :=
  { Method := "POST", URL := "/v1/orders", Proto := "HTTP/1.1", Host := "api.example.com",
    Body := "{}", Header := ⟨[("X-Jwt", ["app-2"])]⟩ }

/-- A request whose token header carries two values, the first with a scheme
in front of the issuer name and a blank behind it, between two other headers. -/
def bearerRequest : http.Request :=
  { Method := "GET", URL := "/v1/users", Proto := "HTTP/1.1", Host := "api.example.com",
    Body := "",
    Header := ⟨[("Accept", ["*/*"]), ("X-Jwt", ["Bearer app-1 ", "second"]),
      ("X-App-Id", ["admin"])]⟩ }

/-- A response writer to which nothing has been written. -/
def freshResponse : http.ResponseWriter := ⟨⟨[]⟩, none, ""⟩

/-- An initial world: empty log, no request recorded. -/
def world0 : World (List http.Request) := ⟨[], []⟩

/-! ## Lemmas on the string helpers -/

theorem intercalate_cons_cons (sep a b : List Char) (l : List (List Char)) :
    List.intercalate sep (a :: b :: l) = a ++ sep ++ List.intercalate sep (b :: l) := by
  simp [List.intercalate, List.intersperse]

theorem splitLoop_slash_nil : strings.splitLoop ['/'] 0 [] = [[]] := rfl

theorem splitLoop_slash_cons (c : Char) (cs : List Char) :
    strings.splitLoop ['/'] 0 (c :: cs) =
      if c = '/' then [] :: strings.splitLoop ['/'] 0 cs
      else match strings.splitLoop ['/'] 0 cs with
        | [] => [[c]]
        | seg :: rest => (c :: seg) :: rest := by
  by_cases hc : c = '/'
  · subst hc
    simp [strings.splitLoop, List.isPrefixOf]
  · have hc1 : ¬ ('/' = c) := fun h => hc h.symm
    simp [strings.splitLoop, List.isPrefixOf, hc, hc1]

theorem splitLoop_slash_spec (s : List Char) :
    strings.splitLoop ['/'] 0 s ≠ [] ∧
    (∀ seg ∈ strings.splitLoop ['/'] 0 s, '/' ∉ seg) ∧
    List.intercalate ['/'] (strings.splitLoop ['/'] 0 s) = s := by
  induction s with
  | nil => simp [splitLoop_slash_nil, List.intercalate]
  | cons c cs ih =>
    obtain ⟨hne, hseg, hjoin⟩ := ih
    rw [splitLoop_slash_cons]
    cases hL : strings.splitLoop ['/'] 0 cs with
    | nil => exact absurd hL hne
    | cons seg rest =>
      rw [hL] at hseg hjoin
      by_cases hc : c = '/'
      · subst hc
        refine ⟨by simp, ?_, ?_⟩
        · intro x hx
          simp only [if_true, List.mem_cons] at hx
          rcases hx with hx | hx
          · subst hx; simp
          · exact hseg x (List.mem_cons.mpr hx)
        · simp only [if_true]
          rw [intercalate_cons_cons, hjoin]
          simp
      · have hc1 : ¬ ('/' = c) := fun h => hc h.symm
        refine ⟨by simp [hc], ?_, ?_⟩
        · intro x hx
          simp only [hc, if_false, List.mem_cons] at hx
          rcases hx with hx | hx
          · subst hx
            have := hseg seg (List.mem_cons_self _ _)
            simp [hc1, this]
          · exact hseg x (List.mem_cons_of_mem _ hx)
        · simp only [hc, if_false]
          cases rest with
          | nil =>
            simp only [List.intercalate, List.intersperse, List.flatten] at hjoin ⊢
            simpa using hjoin
          | cons b l =>
            rw [intercalate_cons_cons] at hjoin ⊢
            simp [← hjoin]

theorem Trim_data (s cutset : String) :
    (strings.Trim s cutset).data =
      ((s.data.dropWhile (strings.inCutset cutset)).reverse.dropWhile
        (strings.inCutset cutset)).reverse := rfl

theorem Trim_spec (s cutset : String) :
    ∃ a b : List Char,
      s.data = a ++ (strings.Trim s cutset).data ++ b ∧
      (∀ c ∈ a, strings.inCutset cutset c = true) ∧
      (∀ c ∈ b, strings.inCutset cutset c = true) ∧
      (∀ c, (strings.Trim s cutset).data.head? = some c → strings.inCutset cutset c = false) ∧
      (∀ c, (strings.Trim s cutset).data.getLast? = some c →
        strings.inCutset cutset c = false) := by
  set f := strings.inCutset cutset with hf
  set m := s.data.dropWhile f with hm
  have hsplit : m = (m.reverse.dropWhile f).reverse ++ (m.reverse.takeWhile f).reverse := by
    rw [← List.reverse_append, List.takeWhile_append_dropWhile, List.reverse_reverse]
  have hlast : ∀ c, (m.reverse.dropWhile f).reverse.getLast? = some c → f c = false := by
    intro c hc
    rw [List.getLast?_reverse] at hc
    have := List.head?_dropWhile_not f m.reverse
    rw [hc] at this
    exact this
  have hhead : ∀ c, (m.reverse.dropWhile f).reverse.head? = some c → f c = false := by
    intro c hc
    have h1 : m.head? = some c := by
      rw [hsplit]
      cases ht : (m.reverse.dropWhile f).reverse with
      | nil => rw [ht] at hc; simp at hc
      | cons x xs => rw [ht] at hc; simpa using hc
    have := List.head?_dropWhile_not f s.data
    rw [← hm, h1] at this
    exact this
  refine ⟨s.data.takeWhile f, (m.reverse.takeWhile f).reverse, ?_, ?_, ?_, ?_, ?_⟩
  · rw [Trim_data, ← hf, ← hm, List.append_assoc, ← hsplit, hm,
      List.takeWhile_append_dropWhile]
  · intro c hc
    exact List.mem_takeWhile_imp hc
  · intro c hc
    exact List.mem_takeWhile_imp (List.mem_reverse.mp hc)
  · intro c hc
    rw [Trim_data, ← hf, ← hm] at hc
    exact hhead c hc
  · intro c hc
    rw [Trim_data, ← hf, ← hm] at hc
    exact hlast c hc

theorem inCutset_slash (c : Char) : strings.inCutset "/" c = true ↔ c = '/' := by
  simp [strings.inCutset]

theorem splitPath_eq (p : String) :
    splitPath p = (strings.splitLoop ['/'] 0 (strings.Trim p "/").data).map String.mk := by
  simp [splitPath, strings.Split]

theorem Trim_all_slash (p : String) (h : ∀ c ∈ p.data, c = '/') : strings.Trim p "/" = "" := by
  have h1 : p.data.dropWhile (strings.inCutset "/") = [] := by
    rw [List.dropWhile_eq_nil_iff]
    intro c hc
    exact (inCutset_slash c).mpr (h c hc)
  simp [strings.Trim, h1]

/-! ## Properties of splitPath -/

/-- Claim C10: for every string p, splitPath p is a non-empty list of segments
none of which contains a slash; joining it with "/" gives the trimmed path,
which is p with a run of leading slashes and a run of trailing slashes removed
and neither starts nor ends with a slash; the default path and its slash-wrapped
form both give ["platform", "app-key"]; an empty or all-slash path gives [""]. -/
theorem splitPath_spec (p : String) :
    splitPath p ≠ [] ∧
    (∀ seg ∈ splitPath p, '/' ∉ seg.data) ∧
    strings.Join (splitPath p) "/" = strings.Trim p "/" ∧
    (∃ a b : List Char,
      p.data = a ++ (strings.Join (splitPath p) "/").data ++ b ∧
      (∀ c ∈ a, c = '/') ∧ (∀ c ∈ b, c = '/') ∧
      (strings.Join (splitPath p) "/").data.head? ≠ some '/' ∧
      (strings.Join (splitPath p) "/").data.getLast? ≠ some '/') ∧
    splitPath defaultMicroConfigPath = ["platform", "app-key"] ∧
    splitPath "platform/app-key" = ["platform", "app-key"] ∧
    splitPath "/platform/app-key/" = ["platform", "app-key"] ∧
    splitPath "" = [""] ∧
    ((∀ c ∈ p.data, c = '/') → splitPath p = [""]) := by
  obtain ⟨hne, hseg, hjoin⟩ := splitLoop_slash_spec (strings.Trim p "/").data
  have hJ : strings.Join (splitPath p) "/" = strings.Trim p "/" := by
    rw [splitPath_eq]
    simp only [strings.Join, List.map_map]
    have hid : (String.data ∘ String.mk) = (id : List Char → List Char) := by
      funext l; rfl
    rw [hid, List.map_id]
    show String.mk (List.intercalate ['/'] _) = _
    rw [hjoin]
  refine ⟨?_, ?_, hJ, ?_, by decide, by decide, by decide, by decide, ?_⟩
  · rw [splitPath_eq]
    simpa using hne
  · intro seg hs
    rw [splitPath_eq, List.mem_map] at hs
    obtain ⟨l, hl, rfl⟩ := hs
    exact hseg l hl
  · rw [hJ]
    obtain ⟨a, b, hab, ha, hb, hh, hl⟩ := Trim_spec p "/"
    refine ⟨a, b, hab, ?_, ?_, ?_, ?_⟩
    · intro c hc; exact (inCutset_slash c).mp (ha c hc)
    · intro c hc; exact (inCutset_slash c).mp (hb c hc)
    · intro h
      have := hh _ h
      rw [(inCutset_slash _).mpr rfl] at this
      exact Bool.noConfusion this
    · intro h
      have := hl _ h
      rw [(inCutset_slash _).mpr rfl] at this
      exact Bool.noConfusion this
  · intro h
    rw [splitPath, Trim_all_slash p h]
    decide

/-! ## Lemmas on headers and on the two branches of the handler -/

theorem lookup_filter_ne (l : List (String × List String)) (k k1 : String) (hne : k1 ≠ k) :
    List.lookup k1 (l.filter (fun e => e.1 != k)) = List.lookup k1 l := by
  induction l with
  | nil => rfl
  | cons e l ih =>
    obtain ⟨a, b⟩ := e
    by_cases ha : a = k
    · subst ha
      have hb : (k1 == a) = false := by simpa using hne
      simp [List.filter, List.lookup, ih, hb]
    · have hak : (a != k) = true := by simpa using ha
      by_cases hk : k1 = a
      · subst hk
        simp [List.filter, List.lookup, hak]
      · have hb : (k1 == a) = false := by simpa using hk
        simp [List.filter, List.lookup, hak, hb, ih]

theorem index_assign_self (h : http.Header) (k : String) (vs : List String) :
    (h.assign k vs).index k = some vs := by
  simp [http.Header.index, http.Header.assign, List.lookup]

theorem index_assign_ne (h : http.Header) (k k1 : String) (vs : List String) (hne : k1 ≠ k) :
    (h.assign k vs).index k1 = h.index k1 := by
  have hb : (k1 == k) = false := by simpa using hne
  simp only [http.Header.index, http.Header.assign, List.lookup, hb]
  exact lookup_filter_ne h.entries k k1 hne

theorem entries_assign_self (h : http.Header) (k : String) (vs : List String) :
    (h.assign k vs).entries.filter (fun e => e.1 == k) = [(k, vs)] := by
  simp [http.Header.assign, List.filter_filter]

theorem canonical_AppIdKey : textproto.CanonicalMIMEHeaderKey AppIdKey = "X-App-Id" := by
  decide

theorem Handler_valid {σ : Type} (V : Verifier σ) (p : jwt) (h : Handler σ)
    (rw : http.ResponseWriter) (r : http.Request) (w w2 : World σ) (res : VerifyResult)
    (c : Claims) (hen : p.enabled = true)
    (hv : V (r.Header.Get p.headerKey) p.opt
      (w.Debugf "Received JWT Token: %s" [r.Header.Get p.headerKey]) = .ok (res, w2))
    (hvalid : res.valid = true) (hc : res.claims = some c) :
    p.Handler V h rw r w = h rw { r with Header := r.Header.Set AppIdKey c.Issuer } w2 := by
  simp only [jwt.Handler, hen, Bool.not_true, Bool.false_eq_true, if_false, hv, hvalid, hc]

theorem Handler_invalid {σ : Type} (V : Verifier σ) (p : jwt) (h : Handler σ)
    (rw : http.ResponseWriter) (r : http.Request) (w w2 : World σ) (res : VerifyResult)
    (hen : p.enabled = true)
    (hv : V (r.Header.Get p.headerKey) p.opt
      (w.Debugf "Received JWT Token: %s" [r.Header.Get p.headerKey]) = .ok (res, w2))
    (hinvalid : res.valid = false) :
    p.Handler V h rw r w =
      .ok (http.Error rw "forbidden: JWT is invalid" 403,
        w2.Warnf "failed to validate JWT: %v" [errString res.err]) := by
  simp only [jwt.Handler, hen, Bool.not_true, Bool.not_false, Bool.false_eq_true, if_false,
    if_true, hv, hinvalid]

theorem Error_status (rw : http.ResponseWriter) (msg : String) (code : Nat)
    (hrw : rw.status = none) : (http.Error rw msg code).status = some code := by
  simp [http.Error, http.ResponseWriter.Write, http.ResponseWriter.WriteHeader, hrw]

theorem Error_body (rw : http.ResponseWriter) (msg : String) (code : Nat) :
    (http.Error rw msg code).body = rw.body ++ (msg ++ "\n") := by
  cases hst : rw.status <;>
    simp [http.Error, http.ResponseWriter.Write, http.ResponseWriter.WriteHeader, hst]

/-! ## Properties of the filter -/

/-- Claim C1: for every enabled filter, every request (whatever it carries for
x-app-id, also nothing) and every run in which the verifier returns valid with
claims of issuer I, the request the downstream handler receives carries exactly
the single value I for x-app-id; no other value, so not the caller-supplied
one, is present under that header. -/
theorem verified_issuer_overwrites_app_id {σ : Type} (V : Verifier σ) (p : jwt)
    (rw : http.ResponseWriter) (r : http.Request) (w w2 : World σ) (c : Claims)
    (err : Option String) (hen : p.enabled = true)
    (hv : V (r.Header.Get p.headerKey) p.opt
      (w.Debugf "Received JWT Token: %s" [r.Header.Get p.headerKey]) =
        .ok (⟨true, some c, err⟩, w2)) :
    ∃ r1 : http.Request,
      (∀ h : Handler σ, p.Handler V h rw r w = h rw r1 w2) ∧
      r1.Header.Values AppIdKey = [c.Issuer] ∧
      r1.Header.Get AppIdKey = c.Issuer ∧
      r1.Header.entries.filter (fun e => e.1 == "X-App-Id") = [("X-App-Id", [c.Issuer])] ∧
      (∀ v ∈ r1.Header.Values AppIdKey, v = c.Issuer) := by
  refine ⟨{ r with Header := r.Header.Set AppIdKey c.Issuer }, ?_, ?_, ?_, ?_, ?_⟩
  · intro h
    exact Handler_valid V p h rw r w w2 _ c hen hv rfl rfl
  · simp [http.Header.Values, http.Header.Set, index_assign_self]
  · simp [http.Header.Get, http.Header.Set, index_assign_self]
  · simp only [http.Header.Set, canonical_AppIdKey]
    exact entries_assign_self _ _ _
  · intro v hv1
    simpa [http.Header.Values, http.Header.Set, index_assign_self] using hv1

/-- Witness of C1: the initialised demo filter with the verifier that accepts
the token app-1 as issuer, on a request that carries x-app-id: admin. -/
theorem verified_issuer_overwrites_app_id_witness :
    demoFilter.enabled = true ∧
    spoofedRequest.Header.Values AppIdKey = ["admin"] ∧
    ∃ r1 : http.Request,
      demoFilter.Handler echoVerifier recorder freshResponse spoofedRequest world0 =
        recorder freshResponse r1 (world0.Debugf "Received JWT Token: %s" ["app-1"]) ∧
      r1.Header.Values AppIdKey = ["app-1"] ∧
      (∀ v ∈ r1.Header.Values AppIdKey, v = "app-1") :=
  ⟨rfl, by decide,
    (verified_issuer_overwrites_app_id echoVerifier demoFilter freshResponse spoofedRequest
      world0 (world0.Debugf "Received JWT Token: %s" ["app-1"]) ⟨"app-1", 0⟩ none rfl
      (by rfl)).elim
      (fun r1 hr => ⟨r1, hr.1 recorder, hr.2.1, hr.2.2.2.2⟩)⟩

/-- Claim C2: for every enabled filter and every request, when the verifier
returns valid = false (with any claims and any error) the filter answers with
a response of status 403, whatever the downstream handler is: the downstream
handler is not invoked and the external state is the one the verifier left. -/
theorem invalid_token_rejected_with_403 {σ : Type} (V : Verifier σ) (p : jwt)
    (rw : http.ResponseWriter) (r : http.Request) (w w2 : World σ) (res : VerifyResult)
    (hen : p.enabled = true)
    (hv : V (r.Header.Get p.headerKey) p.opt
      (w.Debugf "Received JWT Token: %s" [r.Header.Get p.headerKey]) = .ok (res, w2))
    (hinvalid : res.valid = false) :
    ∃ (rw1 : http.ResponseWriter) (w3 : World σ),
      (∀ h : Handler σ, p.Handler V h rw r w = .ok (rw1, w3)) ∧
      (rw.status = none → rw1.status = some 403) ∧
      w3.ext = w2.ext := by
  refine ⟨http.Error rw "forbidden: JWT is invalid" 403,
    w2.Warnf "failed to validate JWT: %v" [errString res.err], ?_, ?_, rfl⟩
  · intro h
    exact Handler_invalid V p h rw r w w2 res hen hv hinvalid
  · intro hrw
    exact Error_status rw _ 403 hrw

/-- Witness of C2: the demo filter with the verifier that rejects everything;
neither the recording nor the panicking downstream handler is run. -/
theorem invalid_token_rejected_with_403_witness :
    demoFilter.enabled = true ∧
    ∃ (rw1 : http.ResponseWriter) (w3 : World (List http.Request)),
      demoFilter.Handler rejectAll recorder freshResponse spoofedRequest world0 = .ok (rw1, w3) ∧
      demoFilter.Handler rejectAll crashing freshResponse spoofedRequest world0 = .ok (rw1, w3) ∧
      rw1.status = some 403 ∧ w3.ext = [] :=
  ⟨rfl,
    (invalid_token_rejected_with_403 rejectAll demoFilter freshResponse spoofedRequest world0
      (world0.Debugf "Received JWT Token: %s" ["app-1"])
      ⟨false, none, some "token is malformed"⟩ rfl (by rfl) rfl).elim
      (fun rw1 hr => hr.elim
        (fun w3 hw => ⟨rw1, w3, hw.1 recorder, hw.1 crashing, hw.2.1 rfl, hw.2.2⟩))⟩

/-- Claim C3: when enabled = false, Handler applied to a downstream handler h
is h itself, for every h, every verifier and every other field of the filter
(header key, key store set or not): every request is served by h as it came
in, nothing is read from it, the verifier and the key store are not called and
x-app-id is not written. The filter returned by NewJWT is such a filter. -/
theorem disabled_filter_is_identity {σ : Type} (V : Verifier σ) (p : jwt) (h : Handler σ)
    (hdis : p.enabled = false) :
    p.Handler V h = h ∧
    (∀ (rw : http.ResponseWriter) (r : http.Request) (w : World σ),
      p.Handler V h rw r w = h rw r w) ∧
    (∀ (V1 : Verifier σ) (p1 : jwt), p1.enabled = false → p1.Handler V1 h = p.Handler V h) ∧
    NewJWT.enabled = false ∧
    NewJWT.Handler V h = h := by
  have key : ∀ (V1 : Verifier σ) (p1 : jwt), p1.enabled = false → p1.Handler V1 h = h := by
    intro V1 p1 h1
    simp [jwt.Handler, h1]
  refine ⟨key V p hdis, ?_, ?_, rfl, key V NewJWT rfl⟩
  · intro rw r w
    rw [key V p hdis]
  · intro V1 p1 h1
    rw [key V1 p1 h1, key V p hdis]

/-- Witness of C3: the filter as NewJWT returns it (no key store) with a
verifier that would make the enabled filter panic: the recording handler
receives the request as it came in, x-app-id: admin included. -/
theorem disabled_filter_is_identity_witness :
    NewJWT.enabled = false ∧
    NewJWT.Handler validNoClaims recorder = recorder ∧
    NewJWT.Handler validNoClaims recorder freshResponse spoofedRequest world0 =
      .ok (freshResponse, ⟨[], [spoofedRequest]⟩) :=
  ⟨rfl, (disabled_filter_is_identity validNoClaims NewJWT recorder rfl).1,
    ((disabled_filter_is_identity validNoClaims NewJWT recorder rfl).2.1
      freshResponse spoofedRequest world0).trans rfl⟩

/-- Claim C4: for every enabled filter and any two runs (two requests, two
worlds, hence two tokens) in which the verifier returns valid = false, with
whatever errors and claims, the response written is the same: started from the
same response writer the two responses are equal, and started from response
writers that agree on status and body they agree on status and body. -/
theorem rejection_is_uniform {σ : Type} (V : Verifier σ) (p : jwt) (h : Handler σ)
    (rwA rwB : http.ResponseWriter) (rA rB : http.Request) (wA wB wA2 wB2 : World σ)
    (resA resB : VerifyResult) (hen : p.enabled = true)
    (hvA : V (rA.Header.Get p.headerKey) p.opt
      (wA.Debugf "Received JWT Token: %s" [rA.Header.Get p.headerKey]) = .ok (resA, wA2))
    (hvB : V (rB.Header.Get p.headerKey) p.opt
      (wB.Debugf "Received JWT Token: %s" [rB.Header.Get p.headerKey]) = .ok (resB, wB2))
    (hA : resA.valid = false) (hB : resB.valid = false) :
    ∃ (outA outB : http.ResponseWriter) (wA3 wB3 : World σ),
      p.Handler V h rwA rA wA = .ok (outA, wA3) ∧
      p.Handler V h rwB rB wB = .ok (outB, wB3) ∧
      (rwA = rwB → outA = outB) ∧
      (rwA.status = rwB.status → rwA.body = rwB.body →
        outA.status = outB.status ∧ outA.body = outB.body) := by
  refine ⟨_, _, _, _, Handler_invalid V p h rwA rA wA wA2 resA hen hvA hA,
    Handler_invalid V p h rwB rB wB wB2 resB hen hvB hB, ?_, ?_⟩
  · intro hrw
    rw [hrw]
  · intro hst hbody
    refine ⟨?_, ?_⟩
    · cases hs : rwA.status <;>
        simp [http.Error, http.ResponseWriter.Write, http.ResponseWriter.WriteHeader, ← hst, hs]
    · rw [Error_body, Error_body, hbody]

/-- Witness of C4: the demo filter rejects a request without token (malformed)
and a request of an unknown issuer with the same response. -/
theorem rejection_is_uniform_witness :
    demoFilter.enabled = true ∧
    ∃ (out : http.ResponseWriter) (wA3 wB3 : World (List http.Request)),
      demoFilter.Handler lookupVerifier recorder freshResponse bareRequest world0 =
        .ok (out, wA3) ∧
      demoFilter.Handler lookupVerifier recorder freshResponse unknownIssuerRequest world0 =
        .ok (out, wB3) ∧
      wA3.log ≠ wB3.log :=
  ⟨rfl,
    (rejection_is_uniform lookupVerifier demoFilter recorder freshResponse freshResponse
      bareRequest unknownIssuerRequest world0 world0
      (world0.Debugf "Received JWT Token: %s" [""])
      ((world0.Debugf "Received JWT Token: %s" ["app-2"]).Debugf "Issuer from JWT: %s" ["app-2"])
      ⟨false, none, some "token is malformed"⟩ ⟨false, none, some "unknown issuer"⟩
      rfl (by rfl) (by rfl) rfl rfl).elim
      (fun outA hA => hA.elim (fun outB hB => hB.elim (fun wA3 hC => hC.elim (fun wB3 hD =>
        ⟨outA, wA3, wB3, hD.1, (hD.2.2.1 rfl).symm ▸ hD.2.1, by
          have h1 := hD.1
          have h2 := hD.2.1
          have e1 : demoFilter.Handler lookupVerifier recorder freshResponse bareRequest world0
              = .ok (http.Error freshResponse "forbidden: JWT is invalid" 403,
                  (world0.Debugf "Received JWT Token: %s" [""]).Warnf
                    "failed to validate JWT: %v" ["token is malformed"]) := rfl
          have e2 : demoFilter.Handler lookupVerifier recorder freshResponse
              unknownIssuerRequest world0
              = .ok (http.Error freshResponse "forbidden: JWT is invalid" 403,
                  ((world0.Debugf "Received JWT Token: %s" ["app-2"]).Debugf
                    "Issuer from JWT: %s" ["app-2"]).Warnf
                    "failed to validate JWT: %v" ["unknown issuer"]) := rfl
          rw [e1] at h1
          rw [e2] at h2
          injection h1 with h1
          injection h2 with h2
          rw [← (Prod.mk.inj h1).2, ← (Prod.mk.inj h2).2]
          decide⟩))))⟩

/-- Claim C5: for every enabled filter and every request on which the verifier
returns valid (with claims), the wrapper behaves as exactly one call of the
downstream handler, on the response writer as it came in (the filter writes
nothing to it) and on a request whose method, URL, protocol, host and body are
those of the incoming request and whose headers other than x-app-id, the token
header among them, are those of the incoming request; x-app-id is the issuer. -/
theorem valid_request_forwarded_once {σ : Type} (V : Verifier σ) (p : jwt)
    (rw : http.ResponseWriter) (r : http.Request) (w w2 : World σ) (c : Claims)
    (err : Option String) (hen : p.enabled = true)
    (hv : V (r.Header.Get p.headerKey) p.opt
      (w.Debugf "Received JWT Token: %s" [r.Header.Get p.headerKey]) =
        .ok (⟨true, some c, err⟩, w2)) :
    ∃ r1 : http.Request,
      (∀ h : Handler σ, p.Handler V h rw r w = h rw r1 w2) ∧
      r1.Method = r.Method ∧ r1.URL = r.URL ∧ r1.Proto = r.Proto ∧ r1.Host = r.Host ∧
      r1.Body = r.Body ∧
      (∀ k : String, k ≠ "X-App-Id" → r1.Header.index k = r.Header.index k) ∧
      (∀ key : String,
        textproto.CanonicalMIMEHeaderKey key ≠ textproto.CanonicalMIMEHeaderKey AppIdKey →
        r1.Header.Get key = r.Header.Get key ∧ r1.Header.Values key = r.Header.Values key) ∧
      (textproto.CanonicalMIMEHeaderKey p.headerKey ≠
          textproto.CanonicalMIMEHeaderKey AppIdKey →
        r1.Header.Get p.headerKey = r.Header.Get p.headerKey) ∧
      r1.Header.Get AppIdKey = c.Issuer := by
  have hidx : ∀ k : String, k ≠ "X-App-Id" →
      (r.Header.Set AppIdKey c.Issuer).index k = r.Header.index k := by
    intro k hk
    simp only [http.Header.Set, canonical_AppIdKey]
    exact index_assign_ne _ _ _ _ hk
  have hget : ∀ key : String,
      textproto.CanonicalMIMEHeaderKey key ≠ textproto.CanonicalMIMEHeaderKey AppIdKey →
      (r.Header.Set AppIdKey c.Issuer).Get key = r.Header.Get key ∧
      (r.Header.Set AppIdKey c.Issuer).Values key = r.Header.Values key := by
    intro key hkey
    rw [canonical_AppIdKey] at hkey
    simp only [http.Header.Get, http.Header.Values, hidx _ hkey]
    exact ⟨trivial, trivial⟩
  refine ⟨{ r with Header := r.Header.Set AppIdKey c.Issuer }, ?_, rfl, rfl, rfl, rfl, rfl,
    hidx, hget, fun hk => (hget _ hk).1, ?_⟩
  · intro h
    exact Handler_valid V p h rw r w w2 _ c hen hv rfl rfl
  · simp [http.Header.Get, http.Header.Set, index_assign_self]

/-- Witness of C5: the demo filter forwards the request of issuer app-1; the
recording handler is run once, sees the token header unchanged and the
response writer untouched. -/
theorem valid_request_forwarded_once_witness :
    demoFilter.enabled = true ∧
    ∃ r1 : http.Request,
      demoFilter.Handler lookupVerifier recorder freshResponse spoofedRequest world0 =
        .ok (freshResponse,
          ⟨[⟨LogLevel.debug, "Received JWT Token: %s", ["app-1"]⟩,
            ⟨LogLevel.debug, "Issuer from JWT: %s", ["app-1"]⟩], [r1]⟩) ∧
      r1.Method = "GET" ∧ r1.URL = "/v1/users" ∧ r1.Body = "" ∧
      r1.Header.Get "x-jwt" = "app-1" ∧ r1.Header.Get AppIdKey = "app-1" :=
  ⟨rfl,
    (valid_request_forwarded_once lookupVerifier demoFilter freshResponse spoofedRequest world0
      ((world0.Debugf "Received JWT Token: %s" ["app-1"]).Debugf "Issuer from JWT: %s" ["app-1"])
      ⟨"app-1", 0⟩ none rfl (by rfl)).elim
      (fun r1 hr => ⟨r1, (hr.1 recorder).trans rfl, hr.2.1, hr.2.2.1, hr.2.2.2.2.2.1,
        (hr.2.2.2.2.2.2.2.2.1 (by decide)).trans (by decide), hr.2.2.2.2.2.2.2.2.2⟩)⟩

theorem lookup_append_first (pre post : List (String × List String)) (k : String)
    (x : List String) (hpre : ∀ e ∈ pre, e.1 ≠ k) :
    List.lookup k (pre ++ (k, x) :: post) = some x := by
  induction pre with
  | nil => simp [List.lookup]
  | cons e pre ih =>
    obtain ⟨a, b⟩ := e
    have hne : k ≠ a := fun hk => hpre (a, b) (List.mem_cons_self _ _) hk.symm
    have hb : (k == a) = false := by simpa using hne
    simp only [List.cons_append, List.lookup, hb]
    exact ih (fun e he => hpre e (List.mem_cons_of_mem _ he))

theorem lookup_absent (l : List (String × List String)) (k : String)
    (hl : ∀ e ∈ l, e.1 ≠ k) : List.lookup k l = none := by
  induction l with
  | nil => rfl
  | cons e l ih =>
    obtain ⟨a, b⟩ := e
    have hne : k ≠ a := fun hk => hl (a, b) (List.mem_cons_self _ _) hk.symm
    have hb : (k == a) = false := by simpa using hne
    simp only [List.lookup, hb]
    exact ih (fun e he => hl e (List.mem_cons_of_mem _ he))

theorem Get_of_entry (hd : http.Header) (key v : String) (vs : List String)
    (pre post : List (String × List String))
    (hent : hd.entries = pre ++ (textproto.CanonicalMIMEHeaderKey key, v :: vs) :: post)
    (hpre : ∀ e ∈ pre, e.1 ≠ textproto.CanonicalMIMEHeaderKey key) :
    hd.Get key = v := by
  simp only [http.Header.Get, http.Header.index, hent,
    lookup_append_first pre post _ (v :: vs) hpre]

theorem Get_of_absent (hd : http.Header) (key : String)
    (habs : ∀ e ∈ hd.entries, e.1 ≠ textproto.CanonicalMIMEHeaderKey key) :
    hd.Get key = "" := by
  simp only [http.Header.Get, http.Header.index, lookup_absent hd.entries _ habs]

/-- Claim C6: for every enabled filter and every request the verifier is
consulted at exactly one point, the token being the value `Header.Get` returns
for headerKey. When the request has an entry for the header named headerKey
(names compared in canonical case, so x-jwt, X-Jwt and X-JWT all name the
entry X-Jwt), the token is the first value of that entry exactly as stored,
whatever that string is (nothing stripped, nothing trimmed): the outcome is
the one the verifier decides on that very string, and a verifier that echoes
its token makes that string the forwarded issuer. When the request has no such
entry, or one without values, the token is the empty string, and the verifier
is still called and decides: a rejection when it returns valid = false, a
forwarded request when it returns valid with claims. -/
theorem token_is_raw_header_value {σ : Type} (V : Verifier σ) (p : jwt) (h : Handler σ)
    (rw : http.ResponseWriter) (r : http.Request) (w : World σ) (hen : p.enabled = true) :
    (∀ V1 : Verifier σ,
      V1 (r.Header.Get p.headerKey) p.opt
          (w.Debugf "Received JWT Token: %s" [r.Header.Get p.headerKey]) =
        V (r.Header.Get p.headerKey) p.opt
          (w.Debugf "Received JWT Token: %s" [r.Header.Get p.headerKey]) →
      p.Handler V1 h rw r w = p.Handler V h rw r w) ∧
    p.Handler (fun token _ w1 => .ok (⟨true, some ⟨token, 0⟩, none⟩, w1)) h rw r w =
      h rw { r with Header := r.Header.Set AppIdKey (r.Header.Get p.headerKey) }
        (w.Debugf "Received JWT Token: %s" [r.Header.Get p.headerKey]) ∧
    (∀ (v : String) (vs : List String),
      r.Header.index (textproto.CanonicalMIMEHeaderKey p.headerKey) = some (v :: vs) →
      r.Header.Get p.headerKey = v) ∧
    (r.Header.index (textproto.CanonicalMIMEHeaderKey p.headerKey) = none ∨
      r.Header.index (textproto.CanonicalMIMEHeaderKey p.headerKey) = some [] →
      r.Header.Get p.headerKey = "") ∧
    (r.Header.Get p.headerKey = "" →
      ∀ (res : VerifyResult) (w2 : World σ),
        V "" p.opt (w.Debugf "Received JWT Token: %s" [""]) = .ok (res, w2) →
        (res.valid = false →
          p.Handler V h rw r w =
            .ok (http.Error rw "forbidden: JWT is invalid" 403,
              w2.Warnf "failed to validate JWT: %v" [errString res.err])) ∧
        (∀ c : Claims, res.valid = true → res.claims = some c →
          p.Handler V h rw r w =
            h rw { r with Header := r.Header.Set AppIdKey c.Issuer } w2)) ∧
    (∀ (pre post : List (String × List String)) (v : String) (vs : List String),
      r.Header.entries =
        pre ++ (textproto.CanonicalMIMEHeaderKey p.headerKey, v :: vs) :: post →
      (∀ e ∈ pre, e.1 ≠ textproto.CanonicalMIMEHeaderKey p.headerKey) →
      r.Header.Get p.headerKey = v ∧
      p.Handler (fun token _ w1 => .ok (⟨true, some ⟨token, 0⟩, none⟩, w1)) h rw r w =
        h rw { r with Header := r.Header.Set AppIdKey v }
          (w.Debugf "Received JWT Token: %s" [v]) ∧
      (∀ (res : VerifyResult) (w2 : World σ),
        V v p.opt (w.Debugf "Received JWT Token: %s" [v]) = .ok (res, w2) →
        (res.valid = false →
          p.Handler V h rw r w =
            .ok (http.Error rw "forbidden: JWT is invalid" 403,
              w2.Warnf "failed to validate JWT: %v" [errString res.err])) ∧
        (∀ c : Claims, res.valid = true → res.claims = some c →
          p.Handler V h rw r w =
            h rw { r with Header := r.Header.Set AppIdKey c.Issuer } w2))) ∧
    ((∀ e ∈ r.Header.entries, e.1 ≠ textproto.CanonicalMIMEHeaderKey p.headerKey) →
      r.Header.Get p.headerKey = "") ∧
    (p.headerKey = "x-jwt" ∨ p.headerKey = "X-Jwt" ∨ p.headerKey = "X-JWT" →
      ∀ (pre post : List (String × List String)) (v : String) (vs : List String),
        r.Header.entries = pre ++ ("X-Jwt", v :: vs) :: post →
        (∀ e ∈ pre, e.1 ≠ "X-Jwt") →
        r.Header.Get p.headerKey = v ∧
        p.Handler (fun token _ w1 => .ok (⟨true, some ⟨token, 0⟩, none⟩, w1)) h rw r w =
          h rw { r with Header := r.Header.Set AppIdKey v }
            (w.Debugf "Received JWT Token: %s" [v])) := by
  have hecho : p.Handler (fun token _ w1 => .ok (⟨true, some ⟨token, 0⟩, none⟩, w1)) h rw r w =
      h rw { r with Header := r.Header.Set AppIdKey (r.Header.Get p.headerKey) }
        (w.Debugf "Received JWT Token: %s" [r.Header.Get p.headerKey]) :=
    Handler_valid (fun token _ w1 => .ok (⟨true, some ⟨token, 0⟩, none⟩, w1)) p h rw r w
      (w.Debugf "Received JWT Token: %s" [r.Header.Get p.headerKey])
      ⟨true, some ⟨r.Header.Get p.headerKey, 0⟩, none⟩ ⟨r.Header.Get p.headerKey, 0⟩
      hen rfl rfl rfl
  have hdecide : ∀ tok : String, r.Header.Get p.headerKey = tok →
      ∀ (res : VerifyResult) (w2 : World σ),
        V tok p.opt (w.Debugf "Received JWT Token: %s" [tok]) = .ok (res, w2) →
        (res.valid = false →
          p.Handler V h rw r w =
            .ok (http.Error rw "forbidden: JWT is invalid" 403,
              w2.Warnf "failed to validate JWT: %v" [errString res.err])) ∧
        (∀ c : Claims, res.valid = true → res.claims = some c →
          p.Handler V h rw r w =
            h rw { r with Header := r.Header.Set AppIdKey c.Issuer } w2) := by
    intro tok htok res w2 hv
    rw [← htok] at hv
    exact ⟨fun hinv => Handler_invalid V p h rw r w w2 res hen hv hinv,
      fun c hval hc => Handler_valid V p h rw r w w2 res c hen hv hval hc⟩
  have hcanon : p.headerKey = "x-jwt" ∨ p.headerKey = "X-Jwt" ∨ p.headerKey = "X-JWT" →
      textproto.CanonicalMIMEHeaderKey p.headerKey = "X-Jwt" := by
    intro hk
    rcases hk with hk | hk | hk <;> rw [hk] <;> decide
  refine ⟨?_, hecho, ?_, ?_, hdecide "", ?_, Get_of_absent r.Header p.headerKey, ?_⟩
  · intro V1 hV1
    simp only [jwt.Handler, hen, Bool.not_true, Bool.false_eq_true, if_false, hV1]
  · intro v vs hidx
    simp [http.Header.Get, hidx]
  · intro habs
    rcases habs with habs | habs <;> simp [http.Header.Get, habs]
  · intro pre post v vs hent hpre
    have hget : r.Header.Get p.headerKey = v :=
      Get_of_entry r.Header p.headerKey v vs pre post hent hpre
    refine ⟨hget, ?_, hdecide v hget⟩
    rw [hecho, hget]
  · intro hk pre post v vs hent hpre
    have hc := hcanon hk
    have hget : r.Header.Get p.headerKey = v :=
      Get_of_entry r.Header p.headerKey v vs pre post (by rw [hc]; exact hent)
        (by rw [hc]; exact hpre)
    refine ⟨hget, ?_⟩
    rw [hecho, hget]

/-- Witness of C6: the demo filter (headerKey x-jwt) on a request whose entry
X-Jwt holds the values "Bearer app-1 " and "second": the verifier receives
"Bearer app-1 " as it stands, so the echoing verifier makes it the forwarded
issuer and the verifier that looks the token up as an issuer does not find
app-1 and the request is rejected; on a request without token header the
verifier receives the empty string, the echoing verifier accepts it and the
request is forwarded, the rejecting one makes the filter answer 403. -/
theorem token_is_raw_header_value_witness :
    demoFilter.enabled = true ∧
    bearerRequest.Header.Get demoFilter.headerKey = "Bearer app-1 " ∧
    demoFilter.Handler echoVerifier recorder freshResponse bearerRequest world0 =
      .ok (freshResponse,
        ⟨[⟨LogLevel.debug, "Received JWT Token: %s", ["Bearer app-1 "]⟩],
          [{ bearerRequest with
              Header := ⟨[("X-App-Id", ["Bearer app-1 "]), ("Accept", ["*/*"]),
                ("X-Jwt", ["Bearer app-1 ", "second"])]⟩ }]⟩) ∧
    demoFilter.Handler lookupVerifier recorder freshResponse bearerRequest world0 =
      .ok (http.Error freshResponse "forbidden: JWT is invalid" 403,
        ((world0.Debugf "Received JWT Token: %s" ["Bearer app-1 "]).Debugf
          "Issuer from JWT: %s" ["Bearer app-1 "]).Warnf
          "failed to validate JWT: %v" ["unknown issuer"]) ∧
    bareRequest.Header.Get demoFilter.headerKey = "" ∧
    demoFilter.Handler echoVerifier recorder freshResponse bareRequest world0 =
      recorder freshResponse
        { bareRequest with Header := bareRequest.Header.Set AppIdKey "" }
        (world0.Debugf "Received JWT Token: %s" [""]) ∧
    demoFilter.Handler rejectAll recorder freshResponse bareRequest world0 =
      .ok (http.Error freshResponse "forbidden: JWT is invalid" 403,
        (world0.Debugf "Received JWT Token: %s" [""]).Warnf
          "failed to validate JWT: %v" ["token is malformed"]) :=
  ⟨rfl,
    ((token_is_raw_header_value echoVerifier demoFilter recorder freshResponse bearerRequest
      world0 rfl).2.2.2.2.2.2.2 (Or.inl rfl) [("Accept", ["*/*"])] [("X-App-Id", ["admin"])]
      "Bearer app-1 " ["second"] rfl (by decide)).1,
    ((token_is_raw_header_value echoVerifier demoFilter recorder freshResponse bearerRequest
      world0 rfl).2.2.2.2.2.2.2 (Or.inl rfl) [("Accept", ["*/*"])] [("X-App-Id", ["admin"])]
      "Bearer app-1 " ["second"] rfl (by decide)).2.trans (by rfl),
    (((token_is_raw_header_value lookupVerifier demoFilter recorder freshResponse bearerRequest
      world0 rfl).2.2.2.2.2.1 [("Accept", ["*/*"])] [("X-App-Id", ["admin"])]
      "Bearer app-1 " ["second"] (by decide) (by decide)).2.2
      ⟨false, none, some "unknown issuer"⟩ _ (by rfl)).1 rfl,
    (token_is_raw_header_value echoVerifier demoFilter recorder freshResponse bareRequest
      world0 rfl).2.2.2.2.2.2.1 (by decide),
    ((token_is_raw_header_value echoVerifier demoFilter recorder freshResponse bareRequest
      world0 rfl).2.2.2.2.1 (by decide) ⟨true, some ⟨"", 0⟩, none⟩ _ rfl).2 ⟨"", 0⟩ rfl rfl,
    ((token_is_raw_header_value rejectAll demoFilter recorder freshResponse bareRequest
      world0 rfl).2.2.2.2.1 (by decide) ⟨false, none, some "token is malformed"⟩ _ rfl).1 rfl⟩

/-- Counterexample to C7 as stated: the body the demo filter writes on a
rejected request is the text of jwt.go followed by a newline, not the text the
claim quotes. -/
theorem rejection_body_is_not_the_quoted_text :
    ∃ (rw1 : http.ResponseWriter) (w3 : World (List http.Request)),
      demoFilter.Handler rejectAll recorder freshResponse spoofedRequest world0 = .ok (rw1, w3) ∧
      rw1.status = some 403 ∧
      rw1.body = "forbidden: JWT is invalid\n" ∧
      rw1.body ≠ "forbidden: token is invalid" :=
  ⟨http.Error freshResponse "forbidden: JWT is invalid" 403,
    (world0.Debugf "Received JWT Token: %s" ["app-1"]).Warnf
      "failed to validate JWT: %v" ["token is malformed"],
    rfl, by decide, by decide, by decide⟩

/-- Claim C7, amended: for every enabled filter and every request on which
verification fails, the failure response has status 403 and its body is the
generic text "forbidden: JWT is invalid" followed by a newline (appended to a
response writer to which nothing was written). -/
theorem rejection_body_text {σ : Type} (V : Verifier σ) (p : jwt)
    (rw : http.ResponseWriter) (r : http.Request) (w w2 : World σ) (res : VerifyResult)
    (hen : p.enabled = true)
    (hv : V (r.Header.Get p.headerKey) p.opt
      (w.Debugf "Received JWT Token: %s" [r.Header.Get p.headerKey]) = .ok (res, w2))
    (hinvalid : res.valid = false) (hstatus : rw.status = none) (hbody : rw.body = "") :
    ∃ (rw1 : http.ResponseWriter) (w3 : World σ),
      (∀ h : Handler σ, p.Handler V h rw r w = .ok (rw1, w3)) ∧
      rw1.status = some 403 ∧
      rw1.body = "forbidden: JWT is invalid\n" := by
  refine ⟨http.Error rw "forbidden: JWT is invalid" 403,
    w2.Warnf "failed to validate JWT: %v" [errString res.err], ?_, ?_, ?_⟩
  · intro h
    exact Handler_invalid V p h rw r w w2 res hen hv hinvalid
  · exact Error_status rw _ 403 hstatus
  · rw [Error_body, hbody]
    decide

/-- Witness of amended C7: the demo filter rejecting a request of an unknown issuer. -/
theorem rejection_body_text_witness :
    demoFilter.enabled = true ∧ freshResponse.status = none ∧ freshResponse.body = "" ∧
    ∃ (rw1 : http.ResponseWriter) (w3 : World (List http.Request)),
      demoFilter.Handler lookupVerifier recorder freshResponse unknownIssuerRequest world0 =
        .ok (rw1, w3) ∧
      rw1.status = some 403 ∧
      rw1.body = "forbidden: JWT is invalid\n" :=
  ⟨rfl, rfl, rfl,
    (rejection_body_text lookupVerifier demoFilter freshResponse unknownIssuerRequest world0
      ((world0.Debugf "Received JWT Token: %s" ["app-2"]).Debugf "Issuer from JWT: %s" ["app-2"])
      ⟨false, none, some "unknown issuer"⟩ rfl (by rfl) rfl rfl rfl).elim
      (fun rw1 hr => hr.elim (fun w3 hw => ⟨rw1, w3, hw.1 recorder, hw.2.1, hw.2.2⟩))⟩

theorem lookupVerifier_returns {σ : Type} (tok : String) (opt : VerifyOption σ) (w0 : World σ)
    (hcb : ∀ (iss : String) (w1 : World σ),
      ∃ (k : Option PublicKey) (w2 : World σ), opt.GetPublicKeyFunc iss w1 = .ok (k, w2)) :
    ∃ (res : VerifyResult) (w3 : World σ),
      lookupVerifier tok opt w0 = .ok (res, w3) ∧ (res.valid = true → res.claims ≠ none) := by
  by_cases ht : tok = ""
  · exact ⟨⟨false, none, some "token is malformed"⟩, w0, by simp [lookupVerifier, ht],
      by simp⟩
  · obtain ⟨k, w2, hk⟩ := hcb tok w0
    cases k with
    | none =>
      exact ⟨⟨false, none, some "unknown issuer"⟩, w2, by simp [lookupVerifier, ht, hk],
        by simp⟩
    | some key =>
      exact ⟨⟨true, some ⟨tok, 0⟩, none⟩, w2, by simp [lookupVerifier, ht, hk], by simp⟩

/-- Counterexample to C8 as stated: an enabled filter obtained from NewJWT by
flag parsing alone (no Init, key store unset) panics with a nil dereference as
soon as the verifier calls the key-resolution callback, and the initialised
filter panics with a nil dereference when the verifier returns valid = true
without claims. -/
theorem nil_dereference_is_reachable :
    uninitialised = NewJWT.Flags true "x-jwt" defaultMicroConfigPath defaultMaxExpInterval ∧
    uninitialised.store.isNone = true ∧
    uninitialised.Handler lookupVerifier recorder freshResponse spoofedRequest world0 =
      .error Panic.nilDereference ∧
    demoFilter.store.isSome = true ∧
    demoFilter.Handler validNoClaims recorder freshResponse spoofedRequest world0 =
      .error Panic.nilDereference :=
  ⟨rfl, rfl, rfl, rfl, rfl⟩

/-- Claim C8, amended: a disabled filter (as NewJWT returns it, with or without
Init) hands every request to the downstream handler as it is. For an enabled
filter, every request on which the verifier call returns a result that has
claims whenever it is valid ends in a 403 response or in the request forwarded
with the issuer of those claims. Once Init has set the key store, the
key-resolution callback never panics, so that with every verifier that returns
whenever its callback returns (it may call it) and gives claims with every
valid result, handling the request ends in one of these two outcomes and not in
a nil dereference of the filter. -/
theorem handling_ends_without_nil_dereference {σ : Type} (V : Verifier σ) (p : jwt)
    (h : Handler σ) (rw : http.ResponseWriter) (r : http.Request) (w : World σ) :
    (p.enabled = false → p.Handler V h rw r w = h rw r w) ∧
    (p.enabled = true → ∀ (res : VerifyResult) (w2 : World σ),
      V (r.Header.Get p.headerKey) p.opt
        (w.Debugf "Received JWT Token: %s" [r.Header.Get p.headerKey]) = .ok (res, w2) →
      (res.valid = true → res.claims ≠ none) →
      (∃ (rw1 : http.ResponseWriter) (w3 : World σ),
        p.Handler V h rw r w = .ok (rw1, w3) ∧ (rw.status = none → rw1.status = some 403)) ∨
      (∃ c : Claims, res.claims = some c ∧
        p.Handler V h rw r w = h rw { r with Header := r.Header.Set AppIdKey c.Issuer } w2)) ∧
    (p.enabled = true → ∀ st : Store, p.store = some st →
      (∀ (iss : String) (w1 : World σ), ∃ k : Option PublicKey,
        (p.opt : VerifyOption σ).GetPublicKeyFunc iss w1 =
          .ok (k, w1.Debugf "Issuer from JWT: %s" [iss])) ∧
      ((∀ (tok : String) (opt : VerifyOption σ) (w0 : World σ),
          (∀ (iss : String) (w1 : World σ), ∃ (k : Option PublicKey) (w2 : World σ),
            opt.GetPublicKeyFunc iss w1 = .ok (k, w2)) →
          ∃ (res : VerifyResult) (w3 : World σ),
            V tok opt w0 = .ok (res, w3) ∧ (res.valid = true → res.claims ≠ none)) →
        (∃ (rw1 : http.ResponseWriter) (w3 : World σ),
          p.Handler V h rw r w = .ok (rw1, w3) ∧ (rw.status = none → rw1.status = some 403)) ∨
        (∃ (c : Claims) (w2 : World σ),
          p.Handler V h rw r w =
            h rw { r with Header := r.Header.Set AppIdKey c.Issuer } w2))) := by
  have main : p.enabled = true → ∀ (res : VerifyResult) (w2 : World σ),
      V (r.Header.Get p.headerKey) p.opt
        (w.Debugf "Received JWT Token: %s" [r.Header.Get p.headerKey]) = .ok (res, w2) →
      (res.valid = true → res.claims ≠ none) →
      (∃ (rw1 : http.ResponseWriter) (w3 : World σ),
        p.Handler V h rw r w = .ok (rw1, w3) ∧ (rw.status = none → rw1.status = some 403)) ∨
      (∃ c : Claims, res.claims = some c ∧
        p.Handler V h rw r w =
          h rw { r with Header := r.Header.Set AppIdKey c.Issuer } w2) := by
    intro hen res w2 hv hcl
    cases hval : res.valid with
    | false =>
      exact Or.inl ⟨_, _, Handler_invalid V p h rw r w w2 res hen hv hval,
        fun hrw => Error_status rw _ 403 hrw⟩
    | true =>
      cases hc : res.claims with
      | none => exact absurd hc (hcl hval)
      | some c => exact Or.inr ⟨c, rfl, Handler_valid V p h rw r w w2 res c hen hv hval hc⟩
  have total : ∀ st : Store, p.store = some st →
      ∀ (iss : String) (w1 : World σ), ∃ k : Option PublicKey,
        (p.opt : VerifyOption σ).GetPublicKeyFunc iss w1 =
          .ok (k, w1.Debugf "Issuer from JWT: %s" [iss]) := by
    intro st hst iss w1
    cases hg : st.Get iss with
    | none => exact ⟨none, by simp [jwt.opt, jwt.GetPublicKeyFunc, hst, hg]⟩
    | some key => exact ⟨key.PublicKey, by simp [jwt.opt, jwt.GetPublicKeyFunc, hst, hg]⟩
  refine ⟨?_, main, ?_⟩
  · intro hdis
    simp [jwt.Handler, hdis]
  · intro hen st hst
    refine ⟨total st hst, ?_⟩
    intro hV
    obtain ⟨res, w3, hres, hcl⟩ := hV (r.Header.Get p.headerKey) p.opt
      (w.Debugf "Received JWT Token: %s" [r.Header.Get p.headerKey])
      (fun iss w1 => (total st hst iss w1).elim (fun k hk => ⟨k, _, hk⟩))
    rcases main hen res w3 hres hcl with h1 | ⟨c, _, h2⟩
    · exact Or.inl h1
    · exact Or.inr ⟨c, w3, h2⟩

/-- Witness of amended C8: the initialised demo filter with the verifier that
calls the callback forwards the request of issuer app-1 and does not panic. -/
theorem handling_ends_without_nil_dereference_witness :
    demoFilter.enabled = true ∧ demoFilter.store.isSome = true ∧
    ((∃ (rw1 : http.ResponseWriter) (w3 : World (List http.Request)),
        demoFilter.Handler lookupVerifier recorder freshResponse spoofedRequest world0 =
          .ok (rw1, w3) ∧ (freshResponse.status = none → rw1.status = some 403)) ∨
      (∃ (c : Claims) (w2 : World (List http.Request)),
        demoFilter.Handler lookupVerifier recorder freshResponse spoofedRequest world0 =
          recorder freshResponse
            { spoofedRequest with Header := spoofedRequest.Header.Set AppIdKey c.Issuer } w2)) :=
  ⟨rfl, rfl,
    ((handling_ends_without_nil_dereference lookupVerifier demoFilter recorder freshResponse
      spoofedRequest world0).2.2 rfl demoStore rfl).2
      (fun tok opt w0 hcb => lookupVerifier_returns tok opt w0 hcb)⟩

/-- Claim C9: for every filter whose key store is set (as Init leaves it) and
every issuer iss, the key-resolution callback of the option value the filter
hands to the verifier returns the public key of the record the store holds for
iss when there is one and nil when there is none; a key it returns is the key
of the record of iss, and the result depends on the store only through its
record for iss; MaxExpInterval of that option value is the configured
maxExpInterval. -/
theorem callback_resolves_key_of_issuer {σ : Type} (p : jwt) (st : Store) (iss : String)
    (w : World σ) (hst : p.store = some st) :
    (∀ key : Key, st.Get iss = some key →
      (p.opt : VerifyOption σ).GetPublicKeyFunc iss w =
        .ok (key.PublicKey, w.Debugf "Issuer from JWT: %s" [iss])) ∧
    (st.Get iss = none →
      (p.opt : VerifyOption σ).GetPublicKeyFunc iss w =
        .ok (none, w.Debugf "Issuer from JWT: %s" [iss])) ∧
    (∀ (k : PublicKey) (w1 : World σ),
      (p.opt : VerifyOption σ).GetPublicKeyFunc iss w = .ok (some k, w1) →
      ∃ key : Key, st.Get iss = some key ∧ key.PublicKey = some k) ∧
    (∀ st1 : Store, st1.Get iss = st.Get iss →
      (({ p with store := some st1 } : jwt).opt : VerifyOption σ).GetPublicKeyFunc iss w =
        (p.opt : VerifyOption σ).GetPublicKeyFunc iss w) ∧
    (p.opt : VerifyOption σ).MaxExpInterval = p.maxExpInterval ∧
    (∀ (V : Verifier σ) (h : Handler σ) (rw : http.ResponseWriter) (r : http.Request),
      p.Handler V h rw r w = p.Handler (fun tok _ => V tok p.opt) h rw r w) ∧
    (∀ (p0 : jwt) (mk : List String → Store),
      (p0.Init mk).1.store = some (mk (splitPath p0.microConfigPath))) := by
  refine ⟨?_, ?_, ?_, ?_, rfl, ?_, ?_⟩
  · intro key hkey
    simp [jwt.opt, jwt.GetPublicKeyFunc, hst, hkey]
  · intro hnone
    simp [jwt.opt, jwt.GetPublicKeyFunc, hst, hnone]
  · intro k w1 hk
    cases hg : st.Get iss with
    | none => simp [jwt.opt, jwt.GetPublicKeyFunc, hst, hg] at hk
    | some key =>
      simp [jwt.opt, jwt.GetPublicKeyFunc, hst, hg] at hk
      exact ⟨key, rfl, hk.1⟩
  · intro st1 h1
    simp [jwt.opt, jwt.GetPublicKeyFunc, hst, h1]
  · intro V h rw r
    simp only [jwt.Handler]
  · intro p0 mk
    rfl

/-- Witness of C9: the demo filter resolves the key of app-1 and reports
app-2, for which the store has no record, as not found. -/
theorem callback_resolves_key_of_issuer_witness :
    demoFilter.store.isSome = true ∧
    (demoFilter.opt : VerifyOption (List http.Request)).GetPublicKeyFunc "app-1" world0 =
      .ok (some ⟨3233, 17⟩, world0.Debugf "Issuer from JWT: %s" ["app-1"]) ∧
    (demoFilter.opt : VerifyOption (List http.Request)).GetPublicKeyFunc "app-2" world0 =
      .ok (none, world0.Debugf "Issuer from JWT: %s" ["app-2"]) ∧
    (demoFilter.opt : VerifyOption (List http.Request)).MaxExpInterval = 600000000000 :=
  ⟨rfl,
    (callback_resolves_key_of_issuer demoFilter demoStore "app-1" world0 rfl).1
      ⟨some ⟨3233, 17⟩⟩ rfl,
    (callback_resolves_key_of_issuer demoFilter demoStore "app-2" world0 rfl).2.1 rfl,
    (callback_resolves_key_of_issuer demoFilter demoStore "app-1" world0 rfl).2.2.2.2.1.trans
      (by decide)⟩

end Jwt
